import Mathlib

/-!
# mqtt-plus — verification of spec claims against the source

Shallow embedding of the peer-side protocol engine of the `mqtt-plus`
repository (TypeScript).  JavaScript runtime values are modelled by the
mutual inductive types `JVal`/`JArr`/`JObj`; the envelope classes of
`src/mqtt-plus-msg.ts`, the codec of `src/mqtt-plus-codec.ts` (class
`JSONX` together with the contract of the external cbor2 library), the
topic functions of `src/mqtt-plus-options.ts`, the chunking utilities of
`src/mqtt-plus-util.ts`, the variadic argument parser and `destroy` of
the `BaseTrait`, the `EventTrait` dispatch, and the `ServiceTrait` /
`ResourceTrait` timeout paths are translated into Lean definitions, and
the spec's claims are settled as theorems about those definitions.
-/

namespace MqttPlus

mutual
/-- Model of a JavaScript runtime value as far as the engine manipulates
them: `undef` is `undefined`, `jnull` is `null`, `buf` is a Node `Buffer`
(a `Uint8Array` subclass that additionally has a `toJSON` method), `u8` is
a plain `Uint8Array`, `arr` an array and `obj` a plain object given by its
own enumerable string-keyed properties in insertion order. -/
inductive JVal where
  | undef : JVal
  | jnull : JVal
  | bool (b : Bool) : JVal
  | num (n : Int) : JVal
  | str (s : String) : JVal
  | buf (bytes : List Nat) : JVal
  | u8 (bytes : List Nat) : JVal
  | arr (elems : JArr) : JVal
  | obj (fields : JObj) : JVal
deriving DecidableEq
/-- A JavaScript array of values. -/
inductive JArr where
  | nil : JArr
  | cons (hd : JVal) (tl : JArr) : JArr
deriving DecidableEq
/-- The own enumerable string-keyed properties of a plain JavaScript
object, in insertion order (a JS object cannot bind the same key twice). -/
inductive JObj where
  | nil : JObj
  | cons (key : String) (val : JVal) (tl : JObj) : JObj
deriving DecidableEq
end

namespace JObj

/-- Build an object from a key/value list. -/
def ofList : List (String × JVal) → JObj
  | [] => .nil
  | (k, v) :: rest => .cons k v (ofList rest)

/-- Look up a property by key (first binding wins, as in a JS object). -/
def lookup : JObj → String → Option JVal
  | .nil, _ => none
  | .cons k v rest, key => if k = key then some v else lookup rest key

/-- `Object.keys` of the object, in insertion order. -/
def keys : JObj → List String
  | .nil => []
  | .cons k _ rest => k :: keys rest

end JObj

namespace JVal

/-- JavaScript `typeof` for the modelled values (`typeof null` is
`"object"`, as are buffers, typed arrays, arrays and objects). -/
def typeof : JVal → String
  | undef => "undefined"
  | jnull => "object"
  | bool _ => "boolean"
  | num _ => "number"
  | str _ => "string"
  | buf _ => "object"
  | u8 _ => "object"
  | arr _ => "object"
  | obj _ => "object"

/-- Property access `v.k` on a modelled value: for a plain object the
binding of the key, and `undefined` for a missing key or for any
non-object value (the engine only reads named properties off the plain
objects produced by decoding). -/
def getProp : JVal → String → JVal
  | obj fields, k =>
    match fields.lookup k with
    | some v => v
    | none => undef
  | _, _ => undef

/-- `Array.isArray`. -/
def isArray : JVal → Bool
  | arr _ => true
  | _ => false

end JVal

/-! ## Envelopes (`src/mqtt-plus-msg.ts`)

The six message classes.  A constructed instance carries its fields with
the runtime values handed to the constructor; `params`, `sender` and
`receiver` are modelled by `Option` (`none` is `undefined`), while the
unvalidated `chunk`, `result` and `error` slots keep the raw value. -/

/-- The typed envelope variants of `mqtt-plus-msg.ts`: `EventEmission`,
`StreamTransfer`, `ServiceCallRequest`, `ServiceCallResponse`,
`ResourceTransferRequest` and `ResourceTransferResponse`. -/
inductive Parsed where
  | eventEmission (id event : String) (params : Option JArr)
      (sender receiver : Option String)
  | streamTransfer (id stream : String) (chunk : JVal) (params : Option JArr)
      (sender receiver : Option String)
  | serviceCallRequest (id service : String) (params : Option JArr)
      (sender receiver : Option String)
  | serviceCallResponse (id : String) (result error : JVal)
      (sender receiver : Option String)
  | resourceTransferRequest (id resource : String) (params : Option JArr)
      (sender receiver : Option String)
  | resourceTransferResponse (id : String) (chunk error : JVal)
      (sender receiver : Option String)
deriving DecidableEq

namespace Msg

/-- An optional string field as the runtime value stored on the class. -/
def optStr : Option String → JVal
  | none => .undef
  | some s => .str s

/-- An optional parameter array as the runtime value stored on the class. -/
def optArr : Option JArr → JVal
  | none => .undef
  | some xs => .arr xs

/-- The plain-object view of an envelope instance handed to
`codec.encode`: the own enumerable properties a constructed message class
instance carries, in initialization order (`Base` sets `type`, `id`,
`sender`, `receiver`; the subclass then adds its own parameter
properties).  Optional fields are present with value `undefined`. -/
def toObj : Parsed → JVal
  | .eventEmission id ev params s r => .obj (.ofList
      [("type", .str "event-emission"), ("id", .str id),
       ("sender", optStr s), ("receiver", optStr r),
       ("event", .str ev), ("params", optArr params)])
  | .streamTransfer id st chunk params s r => .obj (.ofList
      [("type", .str "stream-transfer"), ("id", .str id),
       ("sender", optStr s), ("receiver", optStr r),
       ("stream", .str st), ("chunk", chunk), ("params", optArr params)])
  | .serviceCallRequest id sv params s r => .obj (.ofList
      [("type", .str "service-call-request"), ("id", .str id),
       ("sender", optStr s), ("receiver", optStr r),
       ("service", .str sv), ("params", optArr params)])
  | .serviceCallResponse id result error s r => .obj (.ofList
      [("type", .str "service-call-response"), ("id", .str id),
       ("sender", optStr s), ("receiver", optStr r),
       ("result", result), ("error", error)])
  | .resourceTransferRequest id rs params s r => .obj (.ofList
      [("type", .str "resource-transfer-request"), ("id", .str id),
       ("sender", optStr s), ("receiver", optStr r),
       ("resource", .str rs), ("params", optArr params)])
  | .resourceTransferResponse id chunk error s r => .obj (.ofList
      [("type", .str "resource-transfer-response"), ("id", .str id),
       ("sender", optStr s), ("receiver", optStr r),
       ("chunk", chunk), ("error", error)])

/-- `anyFieldsExcept` from `Msg.parse`:
`Object.keys(obj).some((key) => !allowed.includes(key))`. -/
def anyFieldsExcept (fields : JObj) (allowed : List String) : Bool :=
  fields.keys.any (fun key => ¬ allowed.contains key)

/-- `validParams` from `Msg.parse`: `obj.params === undefined ||
(typeof obj.params === "object" && Array.isArray(obj.params))`. -/
def validParams (v : JVal) : Bool :=
  v.getProp "params" = .undef ∨
    (v.getProp "params").typeof = "object" ∧ (v.getProp "params").isArray

/-- Recover the stored value of a validated string-or-undefined field. -/
def asOptStr : JVal → Option String
  | .str s => some s
  | _ => none

/-- Recover the stored value of a validated array-or-undefined field. -/
def asOptArr : JVal → Option JArr
  | .arr xs => some xs
  | _ => none

/-- `Msg.parse` of `src/mqtt-plus-msg.ts`: validate a decoded generic
value and build the typed envelope, or throw the source's error message.
A missing field reads as `undefined`, so the source's `("k" in obj)`
conjuncts collapse into the `typeof`/`undefined` tests shown here. -/
def parse (v : JVal) : Except String Parsed := do
  if v.typeof ≠ "object" ∨ v = .jnull then
    throw "invalid argument: not an object"
  /-  validate common fields  -/
  if (v.getProp "type").typeof ≠ "string" then
    throw "invalid object: missing or invalid \"type\" field"
  if (v.getProp "id").typeof ≠ "string" then
    throw "invalid object: missing or invalid \"id\" field"
  if (v.getProp "sender") ≠ .undef ∧ (v.getProp "sender").typeof ≠ "string" then
    throw "invalid object: invalid \"sender\" field"
  if (v.getProp "receiver") ≠ .undef ∧ (v.getProp "receiver").typeof ≠ "string" then
    throw "invalid object: invalid \"receiver\" field"
  let fields := match v with | .obj fs => fs | _ => .nil
  let id := match v.getProp "id" with | .str s => s | _ => ""
  let sender := asOptStr (v.getProp "sender")
  let receiver := asOptStr (v.getProp "receiver")
  /-  dispatch according to type indication by field  -/
  if v.getProp "type" = .str "event-emission" then
    if (v.getProp "event").typeof ≠ "string" then
      throw "invalid EventEmission object: \"event\" field must be a string"
    if anyFieldsExcept fields ["type", "id", "event", "params", "sender", "receiver"] then
      throw "invalid EventEmission object: contains unknown fields"
    if ¬ validParams v then
      throw "invalid EventEmission object: \"params\" field must be an array"
    let event := match v.getProp "event" with | .str s => s | _ => ""
    return .eventEmission id event (asOptArr (v.getProp "params")) sender receiver
  else if v.getProp "type" = .str "stream-transfer" then
    if (v.getProp "stream").typeof ≠ "string" then
      throw "invalid StreamTransfer object: \"stream\" field must be a string"
    if anyFieldsExcept fields ["type", "id", "stream", "chunk", "params", "sender", "receiver"] then
      throw "invalid StreamTransfer object: contains unknown fields"
    if (v.getProp "chunk") ≠ .undef ∧ (v.getProp "chunk").typeof ≠ "object" then
      throw "invalid StreamTransfer object: \"chunk\" field must be an object or null"
    if ¬ validParams v then
      throw "invalid StreamTransfer object: \"params\" field must be an array"
    let stream := match v.getProp "stream" with | .str s => s | _ => ""
    return .streamTransfer id stream (v.getProp "chunk")
      (asOptArr (v.getProp "params")) sender receiver
  else if v.getProp "type" = .str "service-call-request" then
    if (v.getProp "service").typeof ≠ "string" then
      throw "invalid ServiceCallRequest object: \"service\" field must be a string"
    if anyFieldsExcept fields ["type", "id", "service", "params", "sender", "receiver"] then
      throw "invalid ServiceCallRequest object: contains unknown fields"
    if ¬ validParams v then
      throw "invalid ServiceCallRequest object: \"params\" field must be an array"
    let service := match v.getProp "service" with | .str s => s | _ => ""
    return .serviceCallRequest id service (asOptArr (v.getProp "params")) sender receiver
  else if v.getProp "type" = .str "service-call-response" then
    if anyFieldsExcept fields ["type", "id", "result", "error", "sender", "receiver"] then
      throw "invalid ServiceCallResponse object: contains unknown fields"
    return .serviceCallResponse id (v.getProp "result") (v.getProp "error") sender receiver
  else if v.getProp "type" = .str "resource-transfer-request" then
    if (v.getProp "resource").typeof ≠ "string" then
      throw "invalid ResourceTransferRequest object: \"resource\" field must be a string"
    if anyFieldsExcept fields ["type", "id", "resource", "params", "sender", "receiver"] then
      throw "invalid ResourceTransferRequest object: contains unknown fields"
    if ¬ validParams v then
      throw "invalid ResourceTransferRequest object: \"params\" field must be an array"
    let resource := match v.getProp "resource" with | .str s => s | _ => ""
    return .resourceTransferRequest id resource (asOptArr (v.getProp "params")) sender receiver
  else if v.getProp "type" = .str "resource-transfer-response" then
    if (v.getProp "chunk") ≠ .undef ∧ (v.getProp "chunk").typeof ≠ "object" then
      throw "invalid ResourceTransferResponse object: \"chunk\" field must be an object or null"
    if (v.getProp "error") ≠ .undef ∧ (v.getProp "error").typeof ≠ "string" then
      throw "invalid ResourceTransferResponse object: \"error\" field must be a string"
    if anyFieldsExcept fields ["type", "id", "chunk", "error", "sender", "receiver"] then
      throw "invalid ResourceTransferResponse object: contains unknown fields"
    return .resourceTransferResponse id (v.getProp "chunk") (v.getProp "error") sender receiver
  else
    throw "invalid object: not of any known type"

end Msg

/-! ## Codec (`src/mqtt-plus-codec.ts`)

The two wire formats are modelled by the value transformation
`decode ∘ encode`, i.e. what a payload looks like after one trip through
the codec.

For `cbor` the external cbor2 library is out of scope (spec §1); its
contract is that encoding then decoding yields an equal value, with the
registered tag 64000 encoder/decoder mapping a Node `Buffer` back to a
`Buffer` and a plain `Uint8Array` travelling as a native byte string, so
the cbor round trip is the structural identity `cborRT`.

For `json` the class `JSONX` wraps `JSON.stringify` with a replacer that
rewrites a `Uint8Array` value into `{ __Uint8Array: <base64> }` and
`JSON.parse` with a reviver that rewrites any object whose `__Uint8Array`
property is a string back into a `Uint8Array`.  Per ECMA-262
`SerializeJSONProperty`, a value's own `toJSON` method is invoked *before*
the replacer is consulted: a Node `Buffer` therefore reaches the replacer
already converted by `Buffer.prototype.toJSON` into the plain object
`{ type: "Buffer", data: [..bytes..] }`, and only plain `Uint8Array`
values are wrapped.  `JSON.stringify` furthermore drops object properties
whose value is `undefined` and writes `undefined` array elements as
`null`.  The composition of the two is `jsonRT`. -/

/-- The base64 alphabet used by `btoa`/`atob`. -/
def b64alphabet : List Char :=
  "ABCDEFGHIJKLMNOPQRSTUVWXYZabcdefghijklmnopqrstuvwxyz0123456789+/".data

/-- The base64 digit for a 6-bit value. -/
def b64chr (n : Nat) : Char := b64alphabet.getD n 'A'

/-- The 6-bit value of a base64 digit. -/
def b64val (c : Char) : Nat := (b64alphabet.indexOf c)

/-- `btoa(String.fromCharCode(...arr))` (method `uint8ArrayToBase64` of
class `JSONX`): standard base64 of a byte sequence. -/
def b64encode : List Nat → List Char
  | [] => []
  | [a] => [b64chr (a / 4), b64chr (a % 4 * 16), '=', '=']
  | [a, b] => [b64chr (a / 4), b64chr (a % 4 * 16 + b / 16), b64chr (b % 16 * 4), '=']
  | a :: b :: c :: rest =>
      b64chr (a / 4) :: b64chr (a % 4 * 16 + b / 16) ::
      b64chr (b % 16 * 4 + c / 64) :: b64chr (c % 64) :: b64encode rest

/-- `atob` plus `charCodeAt` (method `base64ToUint8Array` of class
`JSONX`): decode standard base64 back into the byte sequence (a final
`"=="` yields one byte, a final `"="` yields two, a full group three). -/
def b64decode : List Char → List Nat
  | x1 :: x2 :: x3 :: x4 :: rest =>
      if x3 = '=' ∧ x4 = '=' ∧ rest = [] then
        [b64val x1 * 4 + b64val x2 / 16]
      else if x4 = '=' ∧ rest = [] then
        [b64val x1 * 4 + b64val x2 / 16, b64val x2 % 16 * 16 + b64val x3 / 4]
      else
        (b64val x1 * 4 + b64val x2 / 16) :: (b64val x2 % 16 * 16 + b64val x3 / 4) ::
        (b64val x3 % 4 * 64 + b64val x4) :: b64decode rest
  | _ => []

mutual
/-- `decode ∘ encode` of the `cbor` codec (`Codec` with
`type = "cbor"`): by the cbor2 contract, with the registered tag-64000
`Buffer` encoder/decoder, every supported value decodes back to an equal
value, so the transformation is the structural identity. -/
def cborRT : JVal → JVal
  | .undef => .undef
  | .jnull => .jnull
  | .bool b => .bool b
  | .num n => .num n
  | .str s => .str s
  | .buf bs => .buf bs
  | .u8 bs => .u8 bs
  | .arr xs => .arr (cborRTArr xs)
  | .obj fs => .obj (cborRTObj fs)
/-- `cborRT` on an array. -/
def cborRTArr : JArr → JArr
  | .nil => .nil
  | .cons x xs => .cons (cborRT x) (cborRTArr xs)
/-- `cborRT` on an object. -/
def cborRTObj : JObj → JObj
  | .nil => .nil
  | .cons k v fs => .cons k (cborRT v) (cborRTObj fs)
end

/-- The runtime value of `Buffer.prototype.toJSON` applied to a buffer:
the plain object `{ type: "Buffer", data: [..bytes..] }`. -/
def bufferToJSON (bs : List Nat) : JVal :=
  .obj (.cons "type" (.str "Buffer")
    (.cons "data" (.arr (bs.foldr (fun b acc => .cons (.num b) acc) .nil)) .nil))

/-- The reviver of `JSONX.parse`: an object whose `__Uint8Array` property
is a string is replaced by the `Uint8Array` of its base64 payload. -/
def reviveObj (fs : JObj) : JVal :=
  match fs.lookup "__Uint8Array" with
  | some (.str s) => .u8 (b64decode s.data)
  | _ => .obj fs

mutual
/-- `decode ∘ encode` of the `json` codec: the composition
`JSONX.parse ∘ JSONX.stringify` at value level (see the section comment:
`toJSON` runs before the replacer, `undefined` object properties are
dropped, `undefined` array elements become `null`, a plain `Uint8Array`
travels through the `{ __Uint8Array: <base64> }` wrapper). -/
def jsonRT : JVal → JVal
  | .undef => .undef
  | .jnull => .jnull
  | .bool b => .bool b
  | .num n => .num n
  | .str s => .str s
  | .buf bs => bufferToJSON bs
  | .u8 bs => .u8 (b64decode (b64encode bs))
  | .arr xs => .arr (jsonRTArr xs)
  | .obj fs => reviveObj (jsonRTObj fs)
/-- `jsonRT` on an array (an `undefined` element serializes as `null`). -/
def jsonRTArr : JArr → JArr
  | .nil => .nil
  | .cons x xs =>
      .cons (match x with | .undef => .jnull | _ => jsonRT x) (jsonRTArr xs)
/-- `jsonRT` on the property list of an object (a property whose value is
`undefined` is dropped by `JSON.stringify`). -/
def jsonRTObj : JObj → JObj
  | .nil => .nil
  | .cons k v fs =>
      match v with
      | .undef => jsonRTObj fs
      | _ => .cons k (jsonRT v) (jsonRTObj fs)
end

mutual
/-- Values that survive the `json` codec unchanged: no `undefined`, no
Node `Buffer` (whose `toJSON` defeats the `JSONX` wrapper), byte entries
below 256, and no object using the reserved `__Uint8Array` key. -/
def jsonSafe : JVal → Bool
  | .undef => false
  | .jnull => true
  | .bool _ => true
  | .num _ => true
  | .str _ => true
  | .buf _ => false
  | .u8 bs => bs.all (· < 256)
  | .arr xs => jsonSafeArr xs
  | .obj fs => jsonSafeObj fs
/-- `jsonSafe` on an array. -/
def jsonSafeArr : JArr → Bool
  | .nil => true
  | .cons x xs => jsonSafe x && jsonSafeArr xs
/-- `jsonSafe` on an object. -/
def jsonSafeObj : JObj → Bool
  | .nil => true
  | .cons k v fs => (k ≠ "__Uint8Array") && jsonSafe v && jsonSafeObj fs
end

attribute [simp] JVal.typeof JVal.getProp JVal.isArray JObj.ofList JObj.lookup JObj.keys
  Msg.optStr Msg.optArr Msg.asOptStr Msg.asOptArr Msg.anyFieldsExcept Msg.validParams

/-! ### Well-formed envelopes

A well-formed envelope is an instance whose fields have the types the
class declarations of `mqtt-plus-msg.ts` give them: `chunk` is
`Buffer | null` (additionally `undefined` on `ResourceTransferResponse`),
`error` is `string | undefined`, and `params`/`sender`/`receiver` are
already `Option`-typed in the model. -/

/-- A `chunk` value of type `Buffer | null` (a plain `Uint8Array` also
inhabits the `Buffer` slot at runtime). -/
def chunkWF : JVal → Bool
  | .jnull | .buf _ | .u8 _ => true
  | _ => false

/-- An `error` value of type `string | undefined`. -/
def errWF : JVal → Bool
  | .undef | .str _ => true
  | _ => false

/-- Well-formedness of an envelope per the class field types. -/
def Parsed.wf : Parsed → Bool
  | .streamTransfer _ _ chunk _ _ _ => chunkWF chunk
  | .serviceCallResponse _ _ error _ _ => errWF error
  | .resourceTransferResponse _ chunk error _ _ =>
      (chunk == .undef || chunkWF chunk) && errWF error
  | _ => true

/-- `jsonSafe` on an optional parameter array. -/
def jsonParamsSafe : Option JArr → Bool
  | none => true
  | some xs => jsonSafeArr xs

/-- An optional field slot whose stored value survives the json codec:
absent (`undefined`, dropped on encode and read back as `undefined`) or a
`jsonSafe` value. -/
def fieldSafe (v : JVal) : Bool := v == .undef || jsonSafe v

/-- All value-typed components of the envelope survive the json codec:
in particular no component is a Node `Buffer`. -/
def Parsed.jsonSafeEnv : Parsed → Bool
  | .eventEmission _ _ p _ _ => jsonParamsSafe p
  | .streamTransfer _ _ chunk p _ _ => jsonSafe chunk && jsonParamsSafe p
  | .serviceCallRequest _ _ p _ _ => jsonParamsSafe p
  | .serviceCallResponse _ result error _ _ => fieldSafe result && fieldSafe error
  | .resourceTransferRequest _ _ p _ _ => jsonParamsSafe p
  | .resourceTransferResponse _ chunk error _ _ => fieldSafe chunk && fieldSafe error

/-! ## Topic naming (`src/mqtt-plus-options.ts`) -/

/-- Result type of `topicMatch` (`TopicMatching` in
`mqtt-plus-options.ts`): `peerId` is absent for a broadcast topic. -/
structure TopicMatching where
  name : String
  operation : String
  peerId : Option String
deriving DecidableEq

/-- Default `topicMake` of `OptionsTrait`:
`${name}/${protocol}/${peerId ?? "any"}`. -/
def topicMake (name operation : String) (peerId : Option String) : String :=
  name ++ "/" ++ operation ++ "/" ++ peerId.getD "any"

/-- Split a reversed character list at its first `'/'`: the characters
before it (the reversed final segment) and the characters after it. -/
def revBreakSlash : List Char → Option (List Char × List Char)
  | [] => none
  | c :: cs =>
      if c = '/' then some ([], cs)
      else (revBreakSlash cs).map (fun p => (c :: p.1, p.2))

/-- Split a character list at its last `'/'`; `some (before, after)`
with `'/' ∉ after`, or `none` when there is no slash. -/
def lastSplit (cs : List Char) : Option (List Char × List Char) :=
  match revBreakSlash cs.reverse with
  | none => none
  | some (afterRev, beforeRev) => some (beforeRev.reverse, afterRev.reverse)

/-- A JavaScript regular-expression line terminator, which `.` does not
match. -/
def isLineTerm (c : Char) : Bool :=
  c = '\n' ∨ c = '\r' ∨ c = ' ' ∨ c = ' '

/-- Default `topicMatch` of `OptionsTrait`: the regular expression
`/^(.+)\/([^/]+)\/([^/]+)$/` deterministically splits the topic at its
last two slashes — the last two groups are non-empty and slash-free, the
greedy leading group is non-empty and free of line terminators (`.`) —
and a final segment `"any"` yields an absent `peerId`. -/
def topicMatch (topic : String) : Option TopicMatching :=
  match lastSplit topic.data with
  | none => none
  | some (r1, pid) =>
    match lastSplit r1 with
    | none => none
    | some (nm, op) =>
      if pid ≠ [] ∧ op ≠ [] ∧ nm ≠ [] ∧ nm.all (fun c => ¬ isLineTerm c) then
        some ⟨⟨nm⟩, ⟨op⟩, if pid = "any".data then none else some ⟨pid⟩⟩
      else none

/-- The five operation labels of the default topic scheme. -/
def operationLabels : List String :=
  ["event-emission", "service-call-request", "service-call-response",
   "resource-transfer-request", "resource-transfer-response"]

/-! ## Variadic argument parser (`BaseTrait` of `src/mqtt-plus.ts`)

`_isIClientPublishOptions` and `_parseCallArgs` as cited; the receiver
wrapper helpers `_isReceiver`/`_getReceiver` are the `ReceiverTrait`
methods, identical to the ones visible in `src/mqtt-plus-base.ts`. -/

/-- The number of elements of a JavaScript array. -/
def jarrLength : JArr → Nat
  | .nil => 0
  | .cons _ xs => jarrLength xs + 1

/-- `Object.keys` of a runtime value: the own enumerable property names —
an object's keys, an array's or typed array's index strings, none for
primitives.  (`Object.keys(null)` throws a `TypeError` at runtime; the
model returns no keys there, and no theorem below touches `null`.) -/
def jsKeysOf : JVal → List String
  | .obj fields => fields.keys
  | .arr xs => (List.range (jarrLength xs)).map (fun n => toString n)
  | .buf bs => (List.range bs.length).map (fun n => toString n)
  | .u8 bs => (List.range bs.length).map (fun n => toString n)
  | _ => []

/-- `_isReceiver`: `typeof obj === "object" && obj !== null &&
"__receiver" in obj && typeof obj.__receiver === "string"`. -/
def isReceiver (v : JVal) : Bool :=
  v.typeof = "object" ∧ v ≠ .jnull ∧ (v.getProp "__receiver").typeof = "string"

/-- `_getReceiver`: the wrapped receiver id `obj.__receiver`. -/
def getReceiver (v : JVal) : Option String :=
  match v.getProp "__receiver" with
  | .str s => some s
  | _ => none

/-- The known option keys of `_isIClientPublishOptions`. -/
def publishOptionKeys : List String :=
  ["qos", "retain", "dup", "properties", "cbStorePut"]

/-- `_isIClientPublishOptions`: not an object → `false`; otherwise
`Object.keys(arg).every((key) => keys.includes(key))` — vacuously `true`
for an object with no keys. -/
def isIClientPublishOptions (v : JVal) : Bool :=
  if v.typeof ≠ "object" then false
  else (jsKeysOf v).all (fun k => publishOptionKeys.contains k)

/-- Result record of `_parseCallArgs`. -/
structure CallArgs where
  receiver : Option String
  options : JVal
  params : List JVal
deriving DecidableEq

/-- `_parseCallArgs`: classify the leading variadic arguments into an
optional receiver wrapper, an optional publish-options object and the
remaining user parameters (`options` defaults to `{}`). -/
def parseCallArgs (args : List JVal) : CallArgs :=
  let a0 := args.getD 0 .undef
  let a1 := args.getD 1 .undef
  if 2 ≤ args.length ∧ isReceiver a0 ∧ isIClientPublishOptions a1 then
    ⟨getReceiver a0, a1, args.drop 2⟩
  else if 1 ≤ args.length ∧ isReceiver a0 then
    ⟨getReceiver a0, .obj .nil, args.drop 1⟩
  else if 1 ≤ args.length ∧ isIClientPublishOptions a0 then
    ⟨none, a0, args.drop 1⟩
  else ⟨none, .obj .nil, args⟩

/-! ## Chunking (`src/mqtt-plus-util.ts`) -/

structure ChunkMsg where
  chunk : Option (List Nat)
  error : Option String
  final : Bool
deriving DecidableEq

/-- The chunking loop of `sendBufferAsChunks`. -/
def chunkLoop (chunkSize : Nat) (buffer : List Nat) : List ChunkMsg :=
  if chunkSize = 0 ∨ buffer = [] then []
  else if buffer.length ≤ chunkSize then [⟨some buffer, none, true⟩]
  else ⟨some (buffer.take chunkSize), none, false⟩ ::
    chunkLoop chunkSize (buffer.drop chunkSize)
termination_by buffer.length
decreasing_by
  simp only [not_or] at *
  rename_i h1 h2
  simp only [List.length_drop]
  omega

def sendBufferAsChunks (buffer : List Nat) (chunkSize : Nat) : List ChunkMsg :=
  if buffer.length = 0 then [⟨none, none, true⟩]
  else chunkLoop chunkSize buffer

/-- Receiver aggregation. -/
def fetchAggregate : List ChunkMsg → List Nat → Except String (List Nat)
  | [], _ => .error "transfer never completed"
  | m :: rest, acc =>
    match m.error with
    | some e => .error e
    | none =>
      let acc2 := acc ++ m.chunk.getD []
      if m.final then .ok acc2 else fetchAggregate rest acc2

/-! ## Timeout handling for service calls and resource fetches
(`ServiceTrait.call`, `ServiceTrait._responseSubscribe`,
`ServiceTrait._responseUnsubscribe`, `ResourceTrait.fetch`).

JS `Map`s are modelled as association lists observed only through
`mapGet`/`mapHas`; `mapSet`/`mapDelete` keep keys unique exactly as a `Map`
does. Broker interactions (`mqtt.subscribe`/`mqtt.unsubscribe`) are logged
as `BrokerOp` values. -/

inductive BrokerOp where
  | sub (topic : String)
  | unsub (topic : String)
deriving DecidableEq

def mapGet {α : Type} : List (String × α) → String → Option α
  | [], _ => none
  | (k0, v) :: tl, k => if k0 = k then some v else mapGet tl k

def mapDelete {α : Type} : List (String × α) → String → List (String × α)
  | [], _ => []
  | (k0, v) :: tl, k => if k0 = k then mapDelete tl k else (k0, v) :: mapDelete tl k

def mapSet {α : Type} (m : List (String × α)) (k : String) (v : α) : List (String × α) :=
  (k, v) :: mapDelete m k

def mapHas {α : Type} (m : List (String × α)) (k : String) : Bool :=
  (mapGet m k).isSome

/-- Pending-call table, response-subscription refcounts and broker-op log of
the service trait (`responseCallback` maps request id to its pending entry,
abstracted to the service name; `responseSubscriptions` maps a response topic
to its JS-number refcount). -/
structure ServiceState where
  responseCallback : List (String × String)
  responseSubscriptions : List (String × Int)
  ops : List BrokerOp
deriving DecidableEq

/-- The response topic of `_responseSubscribe`/`_responseUnsubscribe`:
`topicMake(service, "service-call-response", this.options.id)`. -/
def respTopic (ownId service : String) : String :=
  topicMake service "service-call-response" (some ownId)

/-- `ServiceTrait._responseSubscribe`. -/
def responseSubscribe (st : ServiceState) (ownId service : String) : ServiceState :=
  let topic := respTopic ownId service
  let st1 :=
    if mapHas st.responseSubscriptions topic then st
    else { st with responseSubscriptions := mapSet st.responseSubscriptions topic 0,
                   ops := st.ops ++ [.sub topic] }
  let count := (mapGet st1.responseSubscriptions topic).getD 0
  { st1 with responseSubscriptions := mapSet st1.responseSubscriptions topic (count + 1) }

/-- `ServiceTrait._responseUnsubscribe`. -/
def responseUnsubscribe (st : ServiceState) (ownId service : String) : ServiceState :=
  let topic := respTopic ownId service
  if ¬ mapHas st.responseSubscriptions topic then st
  else
    let count := (mapGet st.responseSubscriptions topic).getD 0
    let st1 := { st with responseSubscriptions := mapSet st.responseSubscriptions topic (count - 1) }
    if mapGet st1.responseSubscriptions topic = some 0 then
      { st1 with responseSubscriptions := mapDelete st1.responseSubscriptions topic,
                 ops := st1.ops ++ [.unsub topic] }
    else st1

/-- The timeout handler installed by `ServiceTrait.call`: delete the pending
entry, remove the response-subscription contribution, and reject with
`Error("communication timeout")` (returned here as the rejection message). -/
def callOnTimeout (st : ServiceState) (ownId rid service : String) :
    ServiceState × String :=
  let st1 := { st with responseCallback := mapDelete st.responseCallback rid }
  (responseUnsubscribe st1 ownId service, "communication timeout")

/-- Fetch-callback table and broker-op log of the resource trait
(`callbacks` maps request id to its pending entry, abstracted to the
resource name). -/
structure FetchState where
  callbacks : List (String × String)
  ops : List BrokerOp
deriving DecidableEq

/-- The timeout handler installed by `ResourceTrait.fetch`: `cleanup()`
unsubscribes the response topic directly and deletes the callback entry,
then the stream is destroyed with `Error("communication timeout")`
(returned here as the destruction message). -/
def fetchOnTimeout (st : FetchState) (ownId requestId resource : String) :
    FetchState × String :=
  let responseTopic := topicMake resource "resource-transfer-response" (some ownId)
  ({ callbacks := mapDelete st.callbacks requestId,
     ops := st.ops ++ [.unsub responseTopic] }, "communication timeout")

/-! ## Inbound dispatch and the peer-id filter
(`BaseTrait._onMessage`, `EventTrait._dispatchMessage`,
`ServiceTrait._dispatchMessage`). -/

/-- `EventTrait._dispatchMessage`: the condition under which the handler
subscribed for `subscribedEvent` is invoked for a parsed message arriving on
`topic`. The source tests only that the topic matched, that the operation is
"event-emission", that the message parsed as an `EventEmission`, and that a
subscription for its event name exists; the topic's peer-id is not
consulted. -/
def eventDispatches (subscribedEvent : String) (topic : String)
    (parsed : Parsed) : Bool :=
  match topicMatch topic, parsed with
  | some tm, .eventEmission _ ev _ _ _ =>
      tm.operation == "event-emission" && ev == subscribedEvent
  | _, _ => false

/-- `ServiceTrait._dispatchMessage`, response branch: the condition under
which the pending-call callback stored under the response's request id is
invoked. Unlike the event branch, this branch filters on the topic's
peer-id: `topicMatch.peerId === this.options.id`. -/
def serviceResponseDispatches (ownId : String) (pending : List (String × String))
    (topic : String) (parsed : Parsed) : Bool :=
  match topicMatch topic, parsed with
  | some tm, .serviceCallResponse rid _ _ _ _ =>
      tm.operation == "service-call-response" &&
      tm.peerId == some ownId &&
      (mapGet pending rid).isSome
  | _, _ => false

/-! ## Event emission and dry-run publication (`EventTrait.emit`) -/

/-- One `mqtt.publish` as performed by `EventTrait.emit`: the topic, the
envelope handed to the codec, and the merged publish options
`{ qos: 0, ...options }` (represented by their effective qos). -/
structure PublishCall where
  topic : String
  payload : JVal
  qos : Nat
deriving DecidableEq

/-- `EventTrait.emit` (with the request id `rid` standing for the generated
nanoid): builds the event-emission envelope with sender `this.options.id`,
the topic `topicMake(event, "event-emission", receiver)`, and publishes with
`{ qos: 0, ...options }`. The returned list is the sequence of transport
publishes performed. -/
def emit (ownId rid event : String) (params : Option JArr)
    (receiver : Option String) (optQos : Option Nat) : List PublishCall :=
  [⟨topicMake event "event-emission" receiver,
    Msg.toObj (.eventEmission rid event params (some ownId) receiver),
    optQos.getD 0⟩]

/-- Modelled from the spec: `emit({dry: true, event, params, receiver?,
options?})` returns the publish information `{topic, payload, options}`
instead of publishing — per the spec the topic is
`${event}/event-emission/${receiver ?? "any"}`, the payload is the
event-emission envelope carrying id, sender, receiver, event and params,
and the options are the merged `{qos: 0, ...options}` — while performing no
transport operation at all (second component: the empty list of performed
publishes), so it succeeds on a peer constructed with a null transport. -/
def emitDry (ownId rid event : String) (params : Option JArr)
    (receiver : Option String) (optQos : Option Nat) :
    PublishCall × List PublishCall :=
  (⟨event ++ "/event-emission/" ++ (match receiver with | some x => x | none => "any"),
    .obj (.ofList
      [("type", .str "event-emission"), ("id", .str rid),
       ("sender", Msg.optStr (some ownId)), ("receiver", Msg.optStr receiver),
       ("event", .str event), ("params", Msg.optArr params)]),
    (match optQos with | some q => q | none => 0)⟩, [])

/-! ## Transport listener bookkeeping (`BaseTrait` constructor and
`BaseTrait.destroy`). A shared MQTT transport handle keeps a list of
attached listeners, identified abstractly by their owner; an inbound
message is delivered to every attached listener. -/

/-- The `BaseTrait` constructor: `this.mqtt.on("message", ...)` appends this
peer's inbound message callback to the shared transport's listener list. -/
def peerAttach (transport : List String) (ownListener : String) : List String :=
  transport ++ [ownListener]

/-- `BaseTrait.destroy`: `this.mqtt.removeAllListeners()` clears the entire
listener list of the transport handle. -/
def peerDestroy (_transport : List String) : List String :=
  []

/-- The listeners a shared transport invokes on an inbound message. -/
def onInbound (transport : List String) : List String :=
  transport

theorem b64val_b64chr : ∀ n < 64, b64val (b64chr n) = n := by decide

theorem b64chr_ne_eq : ∀ n < 64, ¬ b64chr n = '=' := by decide

/-- Base64 round trip on byte sequences. -/
theorem b64decode_b64encode (bs : List Nat) (h : ∀ b ∈ bs, b < 256) :
    b64decode (b64encode bs) = bs := by
  match bs with
  | [] => rfl
  | [a] =>
    have ha : a < 256 := h a (by simp)
    simp only [b64encode, b64decode]
    rw [if_pos (by simp)]
    rw [b64val_b64chr _ (by omega), b64val_b64chr _ (by omega)]
    simp only [List.cons.injEq, and_true]
    omega
  | [a, b] =>
    have ha : a < 256 := h a (by simp)
    have hb : b < 256 := h b (by simp)
    have h3 : ¬ b64chr (b % 16 * 4) = '=' := b64chr_ne_eq _ (by omega)
    simp only [b64encode, b64decode]
    rw [if_neg (by simp [h3]), if_pos (by simp)]
    rw [b64val_b64chr _ (by omega), b64val_b64chr _ (by omega), b64val_b64chr _ (by omega)]
    simp only [List.cons.injEq, and_true]
    omega
  | a :: b :: c :: rest =>
    have ha : a < 256 := h a (by simp)
    have hb : b < 256 := h b (by simp)
    have hc : c < 256 := h c (by simp)
    have ih := b64decode_b64encode rest (fun x hx => h x (by simp [hx]))
    have h3 : ¬ b64chr (b % 16 * 4 + c / 64) = '=' := b64chr_ne_eq _ (by omega)
    have h4 : ¬ b64chr (c % 64) = '=' := b64chr_ne_eq _ (by omega)
    simp only [b64encode, b64decode]
    rw [if_neg (by simp [h3]), if_neg (by simp [h4])]
    rw [b64val_b64chr _ (by omega), b64val_b64chr _ (by omega),
        b64val_b64chr _ (by omega), b64val_b64chr _ (by omega), ih]
    have e1 : a / 4 * 4 + (a % 4 * 16 + b / 16) / 16 = a := by omega
    have e2 : (a % 4 * 16 + b / 16) % 16 * 16 + (b % 16 * 4 + c / 64) / 4 = b := by omega
    have e3 : (b % 16 * 4 + c / 64) % 4 * 64 + c % 64 = c := by omega
    rw [e1, e2, e3]

mutual
theorem cborRT_id : ∀ v : JVal, cborRT v = v
  | .undef | .jnull | .bool _ | .num _ | .str _ | .buf _ | .u8 _ => rfl
  | .arr xs => by rw [cborRT, cborRTArr_id xs]
  | .obj fs => by rw [cborRT, cborRTObj_id fs]
theorem cborRTArr_id : ∀ xs : JArr, cborRTArr xs = xs
  | .nil => rfl
  | .cons x xs => by rw [cborRTArr, cborRT_id x, cborRTArr_id xs]
theorem cborRTObj_id : ∀ fs : JObj, cborRTObj fs = fs
  | .nil => rfl
  | .cons k v fs => by rw [cborRTObj, cborRT_id v, cborRTObj_id fs]
end

theorem jsonSafeObj_lookup :
    ∀ fs : JObj, jsonSafeObj fs = true → fs.lookup "__Uint8Array" = none
  | .nil, _ => rfl
  | .cons k v fs, h => by
      rw [jsonSafeObj, Bool.and_eq_true, Bool.and_eq_true] at h
      rw [JObj.lookup, if_neg (by simpa using h.1.1)]
      exact jsonSafeObj_lookup fs h.2

mutual
theorem jsonRT_id : ∀ v : JVal, jsonSafe v = true → jsonRT v = v
  | .jnull, _ | .bool _, _ | .num _, _ | .str _, _ => rfl
  | .undef, h => by rw [jsonSafe] at h; cases h
  | .buf _, h => by rw [jsonSafe] at h; cases h
  | .u8 bs, h => by
      rw [jsonRT, b64decode_b64encode bs (by simpa [jsonSafe, List.all_eq_true] using h)]
  | .arr xs, h => by rw [jsonRT, jsonRTArr_id xs (by simpa [jsonSafe] using h)]
  | .obj fs, h => by
      have hs : jsonSafeObj fs = true := by simpa [jsonSafe] using h
      rw [jsonRT, jsonRTObj_id fs hs, reviveObj, jsonSafeObj_lookup fs hs]
theorem jsonRTArr_id : ∀ xs : JArr, jsonSafeArr xs = true → jsonRTArr xs = xs
  | .nil, _ => rfl
  | .cons x xs, h => by
      rw [jsonSafeArr, Bool.and_eq_true] at h
      exact jsonRTArrCons x xs h.1 (jsonRTArr_id xs h.2)
theorem jsonRTArrCons : ∀ (x : JVal) (xs : JArr), jsonSafe x = true →
    jsonRTArr xs = xs → jsonRTArr (.cons x xs) = .cons x xs
  | .undef, _, h, _ => by rw [jsonSafe] at h; cases h
  | .jnull, xs, h, hr => congrArg₂ JArr.cons (jsonRT_id .jnull h) hr
  | .bool b, xs, h, hr => congrArg₂ JArr.cons (jsonRT_id (.bool b) h) hr
  | .num n, xs, h, hr => congrArg₂ JArr.cons (jsonRT_id (.num n) h) hr
  | .str s, xs, h, hr => congrArg₂ JArr.cons (jsonRT_id (.str s) h) hr
  | .buf bs, xs, h, hr => congrArg₂ JArr.cons (jsonRT_id (.buf bs) h) hr
  | .u8 bs, xs, h, hr => congrArg₂ JArr.cons (jsonRT_id (.u8 bs) h) hr
  | .arr ys, xs, h, hr => congrArg₂ JArr.cons (jsonRT_id (.arr ys) h) hr
  | .obj fs, xs, h, hr => congrArg₂ JArr.cons (jsonRT_id (.obj fs) h) hr
theorem jsonRTObj_id : ∀ fs : JObj, jsonSafeObj fs = true → jsonRTObj fs = fs
  | .nil, _ => rfl
  | .cons k v fs, h => by
      rw [jsonSafeObj, Bool.and_eq_true, Bool.and_eq_true] at h
      exact jsonRTObjCons k v fs h.1.2 (jsonRTObj_id fs h.2)
theorem jsonRTObjCons : ∀ (k : String) (v : JVal) (fs : JObj), jsonSafe v = true →
    jsonRTObj fs = fs → jsonRTObj (.cons k v fs) = .cons k v fs
  | _, .undef, _, h, _ => by rw [jsonSafe] at h; cases h
  | k, .jnull, fs, h, hr => by
      exact congrArg₂ (JObj.cons k) (jsonRT_id .jnull h) hr
  | k, .bool b, fs, h, hr => congrArg₂ (JObj.cons k) (jsonRT_id (.bool b) h) hr
  | k, .num n, fs, h, hr => congrArg₂ (JObj.cons k) (jsonRT_id (.num n) h) hr
  | k, .str s, fs, h, hr => congrArg₂ (JObj.cons k) (jsonRT_id (.str s) h) hr
  | k, .buf bs, fs, h, hr => congrArg₂ (JObj.cons k) (jsonRT_id (.buf bs) h) hr
  | k, .u8 bs, fs, h, hr => congrArg₂ (JObj.cons k) (jsonRT_id (.u8 bs) h) hr
  | k, .arr xs, fs, h, hr => congrArg₂ (JObj.cons k) (jsonRT_id (.arr xs) h) hr
  | k, .obj gs, fs, h, hr => congrArg₂ (JObj.cons k) (jsonRT_id (.obj gs) h) hr
end

/-! ### Evaluation lemmas for the round-trip proofs -/

theorem except_pure_eq_ok {α : Type} (x : α) : (pure x : Except String α) = .ok x := rfl

theorem except_ok_bind {α β : Type} (a : α) (f : α → Except String β) :
    (Except.ok a >>= f) = f a := rfl

attribute [simp] except_pure_eq_ok except_ok_bind

theorem jsonSafe_ne_undef : ∀ v : JVal, jsonSafe v = true → v ≠ .undef
  | .undef, h => by rw [jsonSafe] at h; cases h
  | .jnull, _ | .bool _, _ | .num _, _ | .str _, _ | .buf _, _ | .u8 _, _
  | .arr _, _ | .obj _, _ => by intro hc; cases hc

theorem jsonRT_obj (fs : JObj) : jsonRT (.obj fs) = reviveObj (jsonRTObj fs) := rfl

theorem jsonRTObj_nil : jsonRTObj .nil = .nil := rfl

theorem jsonRTObj_cons_undef (k : String) (fs : JObj) :
    jsonRTObj (.cons k .undef fs) = jsonRTObj fs := rfl

theorem jsonRTObj_cons_str (k s : String) (fs : JObj) :
    jsonRTObj (.cons k (.str s) fs) = .cons k (.str s) (jsonRTObj fs) := rfl

theorem jsonRTObj_cons_jnull (k : String) (fs : JObj) :
    jsonRTObj (.cons k .jnull fs) = .cons k .jnull (jsonRTObj fs) := rfl

theorem jsonRTObj_cons_u8 (k : String) (bs : List Nat) (fs : JObj) :
    jsonRTObj (.cons k (.u8 bs) fs) =
      .cons k (.u8 (b64decode (b64encode bs))) (jsonRTObj fs) := rfl

theorem jsonRTObj_cons_arr (k : String) (xs : JArr) (fs : JObj) :
    jsonRTObj (.cons k (.arr xs) fs) = .cons k (.arr (jsonRTArr xs)) (jsonRTObj fs) := rfl

theorem jsonRTObj_cons_ne : ∀ (k : String) (v : JVal) (fs : JObj), v ≠ .undef →
    jsonRTObj (.cons k v fs) = .cons k (jsonRT v) (jsonRTObj fs)
  | _, .undef, _, h => absurd rfl h
  | _, .jnull, _, _ => rfl
  | _, .bool _, _, _ => rfl
  | _, .num _, _, _ => rfl
  | _, .str _, _, _ => rfl
  | _, .buf _, _, _ => rfl
  | _, .u8 _, _, _ => rfl
  | _, .arr _, _, _ => rfl
  | _, .obj _, _, _ => rfl

/-! ### Round-trip lemmas, per envelope kind -/

theorem parse_toObj_event (i ev : String) (p : Option JArr) (s r : Option String) :
    Msg.parse (Msg.toObj (.eventEmission i ev p s r)) = .ok (.eventEmission i ev p s r) := by
  rcases p with _ | xs <;> rcases s with _ | s <;> rcases r with _ | r <;>
    simp [Msg.parse, Msg.toObj]

theorem parse_toObj_stream (i st : String) (chunk : JVal) (p : Option JArr)
    (s r : Option String) (hc : chunkWF chunk = true) :
    Msg.parse (Msg.toObj (.streamTransfer i st chunk p s r)) =
      .ok (.streamTransfer i st chunk p s r) := by
  cases chunk <;> simp only [chunkWF, Bool.false_eq_true] at hc <;>
  rcases p with _ | xs <;> rcases s with _ | s <;> rcases r with _ | r <;>
    simp [Msg.parse, Msg.toObj]

theorem parse_toObj_screq (i sv : String) (p : Option JArr) (s r : Option String) :
    Msg.parse (Msg.toObj (.serviceCallRequest i sv p s r)) =
      .ok (.serviceCallRequest i sv p s r) := by
  rcases p with _ | xs <;> rcases s with _ | s <;> rcases r with _ | r <;>
    simp [Msg.parse, Msg.toObj]

theorem parse_toObj_scres (i : String) (result error : JVal) (s r : Option String) :
    Msg.parse (Msg.toObj (.serviceCallResponse i result error s r)) =
      .ok (.serviceCallResponse i result error s r) := by
  rcases s with _ | s <;> rcases r with _ | r <;> simp [Msg.parse, Msg.toObj]

theorem parse_toObj_rtreq (i rs : String) (p : Option JArr) (s r : Option String) :
    Msg.parse (Msg.toObj (.resourceTransferRequest i rs p s r)) =
      .ok (.resourceTransferRequest i rs p s r) := by
  rcases p with _ | xs <;> rcases s with _ | s <;> rcases r with _ | r <;>
    simp [Msg.parse, Msg.toObj]

theorem parse_toObj_rtres (i : String) (chunk error : JVal) (s r : Option String)
    (hc : (chunk == .undef || chunkWF chunk) = true) (he : errWF error = true) :
    Msg.parse (Msg.toObj (.resourceTransferResponse i chunk error s r)) =
      .ok (.resourceTransferResponse i chunk error s r) := by
  cases chunk <;> simp only [chunkWF, beq_iff_eq, Bool.or_eq_true, decide_eq_true_eq,
    reduceCtorEq, or_false, false_or, Bool.false_eq_true, or_self] at hc <;>
  cases error <;> simp only [errWF, Bool.false_eq_true] at he <;>
  rcases s with _ | s <;> rcases r with _ | r <;> simp [Msg.parse, Msg.toObj]

theorem parse_jsonRT_event (i ev : String) (p : Option JArr) (s r : Option String)
    (hp : jsonParamsSafe p = true) :
    Msg.parse (jsonRT (Msg.toObj (.eventEmission i ev p s r))) =
      .ok (.eventEmission i ev p s r) := by
  rcases p with _ | xs <;> rcases s with _ | s <;> rcases r with _ | r <;>
  first
    | simp [Msg.parse, Msg.toObj, jsonRT_obj, jsonRTObj_nil, jsonRTObj_cons_undef,
        jsonRTObj_cons_str, jsonRTObj_cons_arr, reviveObj,
        jsonRTArr_id xs (by simpa [jsonParamsSafe] using hp)]
    | simp [Msg.parse, Msg.toObj, jsonRT_obj, jsonRTObj_nil, jsonRTObj_cons_undef,
        jsonRTObj_cons_str, reviveObj]

theorem parse_jsonRT_screq (i sv : String) (p : Option JArr) (s r : Option String)
    (hp : jsonParamsSafe p = true) :
    Msg.parse (jsonRT (Msg.toObj (.serviceCallRequest i sv p s r))) =
      .ok (.serviceCallRequest i sv p s r) := by
  rcases p with _ | xs <;> rcases s with _ | s <;> rcases r with _ | r <;>
  first
    | simp [Msg.parse, Msg.toObj, jsonRT_obj, jsonRTObj_nil, jsonRTObj_cons_undef,
        jsonRTObj_cons_str, jsonRTObj_cons_arr, reviveObj,
        jsonRTArr_id xs (by simpa [jsonParamsSafe] using hp)]
    | simp [Msg.parse, Msg.toObj, jsonRT_obj, jsonRTObj_nil, jsonRTObj_cons_undef,
        jsonRTObj_cons_str, reviveObj]

theorem parse_jsonRT_rtreq (i rs : String) (p : Option JArr) (s r : Option String)
    (hp : jsonParamsSafe p = true) :
    Msg.parse (jsonRT (Msg.toObj (.resourceTransferRequest i rs p s r))) =
      .ok (.resourceTransferRequest i rs p s r) := by
  rcases p with _ | xs <;> rcases s with _ | s <;> rcases r with _ | r <;>
  first
    | simp [Msg.parse, Msg.toObj, jsonRT_obj, jsonRTObj_nil, jsonRTObj_cons_undef,
        jsonRTObj_cons_str, jsonRTObj_cons_arr, reviveObj,
        jsonRTArr_id xs (by simpa [jsonParamsSafe] using hp)]
    | simp [Msg.parse, Msg.toObj, jsonRT_obj, jsonRTObj_nil, jsonRTObj_cons_undef,
        jsonRTObj_cons_str, reviveObj]

theorem parse_jsonRT_scres (i : String) (result error : JVal) (s r : Option String)
    (hres : fieldSafe result = true) (herr : fieldSafe error = true) :
    Msg.parse (jsonRT (Msg.toObj (.serviceCallResponse i result error s r))) =
      .ok (.serviceCallResponse i result error s r) := by
  rw [fieldSafe, Bool.or_eq_true, beq_iff_eq] at hres herr
  rcases s with _ | s <;> rcases r with _ | r <;>
  rcases hres with rfl | hres <;> rcases herr with rfl | herr <;>
  first
    | simp [Msg.parse, Msg.toObj, jsonRT_obj, jsonRTObj_nil, jsonRTObj_cons_undef,
        jsonRTObj_cons_str, reviveObj,
        jsonRTObj_cons_ne _ _ _ (jsonSafe_ne_undef _ hres), jsonRT_id _ hres,
        jsonRTObj_cons_ne _ _ _ (jsonSafe_ne_undef _ herr), jsonRT_id _ herr]
    | simp [Msg.parse, Msg.toObj, jsonRT_obj, jsonRTObj_nil, jsonRTObj_cons_undef,
        jsonRTObj_cons_str, reviveObj,
        jsonRTObj_cons_ne _ _ _ (jsonSafe_ne_undef _ hres), jsonRT_id _ hres]
    | simp [Msg.parse, Msg.toObj, jsonRT_obj, jsonRTObj_nil, jsonRTObj_cons_undef,
        jsonRTObj_cons_str, reviveObj,
        jsonRTObj_cons_ne _ _ _ (jsonSafe_ne_undef _ herr), jsonRT_id _ herr]
    | simp [Msg.parse, Msg.toObj, jsonRT_obj, jsonRTObj_nil, jsonRTObj_cons_undef,
        jsonRTObj_cons_str, reviveObj]

theorem parse_jsonRT_stream (i st : String) (chunk : JVal) (p : Option JArr)
    (s r : Option String) (hc : chunkWF chunk = true) (hcs : jsonSafe chunk = true)
    (hp : jsonParamsSafe p = true) :
    Msg.parse (jsonRT (Msg.toObj (.streamTransfer i st chunk p s r))) =
      .ok (.streamTransfer i st chunk p s r) := by
  cases chunk <;> simp only [chunkWF, jsonSafe, Bool.false_eq_true] at hc hcs <;>
  rcases p with _ | xs <;> rcases s with _ | s <;> rcases r with _ | r <;>
  first
    | simp [Msg.parse, Msg.toObj, jsonRT_obj, jsonRTObj_nil, jsonRTObj_cons_undef,
        jsonRTObj_cons_str, jsonRTObj_cons_jnull, jsonRTObj_cons_u8, jsonRTObj_cons_arr,
        reviveObj, b64decode_b64encode _ (by simpa using hcs),
        jsonRTArr_id xs (by simpa [jsonParamsSafe] using hp)]
    | simp [Msg.parse, Msg.toObj, jsonRT_obj, jsonRTObj_nil, jsonRTObj_cons_undef,
        jsonRTObj_cons_str, jsonRTObj_cons_jnull, jsonRTObj_cons_u8, jsonRTObj_cons_arr,
        reviveObj, b64decode_b64encode _ (by simpa using hcs)]
    | simp [Msg.parse, Msg.toObj, jsonRT_obj, jsonRTObj_nil, jsonRTObj_cons_undef,
        jsonRTObj_cons_str, jsonRTObj_cons_jnull, jsonRTObj_cons_arr,
        reviveObj, jsonRTArr_id xs (by simpa [jsonParamsSafe] using hp)]
    | simp [Msg.parse, Msg.toObj, jsonRT_obj, jsonRTObj_nil, jsonRTObj_cons_undef,
        jsonRTObj_cons_str, jsonRTObj_cons_jnull, reviveObj]

theorem parse_jsonRT_rtres (i : String) (chunk error : JVal) (s r : Option String)
    (hc : (chunk == .undef || chunkWF chunk) = true) (he : errWF error = true)
    (hcs : fieldSafe chunk = true) :
    Msg.parse (jsonRT (Msg.toObj (.resourceTransferResponse i chunk error s r))) =
      .ok (.resourceTransferResponse i chunk error s r) := by
  cases chunk <;> simp only [chunkWF, jsonSafe, fieldSafe, beq_iff_eq, reduceCtorEq,
    Bool.or_eq_true, decide_eq_true_eq, or_false, false_or, Bool.false_eq_true,
    or_self, or_true, true_or] at hc hcs <;>
  cases error <;> simp only [errWF, Bool.false_eq_true] at he <;>
  rcases s with _ | s <;> rcases r with _ | r <;>
  first
    | simp [Msg.parse, Msg.toObj, jsonRT_obj, jsonRTObj_nil, jsonRTObj_cons_undef,
        jsonRTObj_cons_str, jsonRTObj_cons_jnull, jsonRTObj_cons_u8, reviveObj,
        b64decode_b64encode _ (by simpa using hcs)]
    | simp [Msg.parse, Msg.toObj, jsonRT_obj, jsonRTObj_nil, jsonRTObj_cons_undef,
        jsonRTObj_cons_str, jsonRTObj_cons_jnull, reviveObj]

/-! ## Claim C1 -/

/-- C1 counterexample: the claim "for every well-formed envelope and both
codecs, `parse(decode(encode(E)))` equals `E` field by field, including
byte-array bodies" is false for the `json` codec.  A well-formed
`ResourceTransferResponse` whose `chunk` is a Node `Buffer` round-trips
into an envelope whose `chunk` is the plain object
`{ type: "Buffer", data: [1, 2] }` — `Buffer.prototype.toJSON` is applied
by `JSON.stringify` before the `JSONX` replacer can wrap the bytes — so
the parsed envelope is not equal to the original. -/
theorem c1_counterexample :
    Parsed.wf (.resourceTransferResponse "r1" (.buf [1, 2]) .undef (some "p") none) = true ∧
    Msg.parse (jsonRT (Msg.toObj
        (.resourceTransferResponse "r1" (.buf [1, 2]) .undef (some "p") none))) =
      .ok (.resourceTransferResponse "r1"
        (.obj (.cons "type" (.str "Buffer")
          (.cons "data" (.arr (.cons (.num 1) (.cons (.num 2) .nil))) .nil)))
        .undef (some "p") none) ∧
    (Parsed.resourceTransferResponse "r1"
        (.obj (.cons "type" (.str "Buffer")
          (.cons "data" (.arr (.cons (.num 1) (.cons (.num 2) .nil))) .nil)))
        .undef (some "p") none) ≠
      (Parsed.resourceTransferResponse "r1" (.buf [1, 2]) .undef (some "p") none) := by
  exact ⟨rfl, rfl, by decide⟩

/-- C1 (amended): for every well-formed envelope the `cbor` codec
round-trips exactly — `parse(decode(encode(E))) = E` field by field,
including Buffer and Uint8Array byte-array bodies; the `json` codec
round-trips exactly for every well-formed envelope none of whose value
components is a Node `Buffer` (plain `Uint8Array` byte arrays travel via
the `{ __Uint8Array: base64 }` wrapper), contains `undefined` inside a
params array, or uses the reserved `__Uint8Array` object key. -/
theorem c1_roundtrip_amended (E : Parsed) (hwf : Parsed.wf E = true) :
    Msg.parse (cborRT (Msg.toObj E)) = .ok E ∧
    (Parsed.jsonSafeEnv E = true → Msg.parse (jsonRT (Msg.toObj E)) = .ok E) := by
  constructor
  · rw [cborRT_id]
    cases E with
    | eventEmission i ev p s r => exact parse_toObj_event i ev p s r
    | streamTransfer i st chunk p s r =>
        exact parse_toObj_stream i st chunk p s r (by simpa [Parsed.wf] using hwf)
    | serviceCallRequest i sv p s r => exact parse_toObj_screq i sv p s r
    | serviceCallResponse i res err s r => exact parse_toObj_scres i res err s r
    | resourceTransferRequest i rs p s r => exact parse_toObj_rtreq i rs p s r
    | resourceTransferResponse i c e s r =>
        have h : (c == JVal.undef || chunkWF c) = true ∧ errWF e = true := by
          simpa [Parsed.wf, Bool.and_eq_true] using hwf
        exact parse_toObj_rtres i c e s r h.1 h.2
  · intro hjs
    cases E with
    | eventEmission i ev p s r =>
        exact parse_jsonRT_event i ev p s r (by simpa [Parsed.jsonSafeEnv] using hjs)
    | streamTransfer i st chunk p s r =>
        have h : jsonSafe chunk = true ∧ jsonParamsSafe p = true := by
          simpa [Parsed.jsonSafeEnv, Bool.and_eq_true] using hjs
        exact parse_jsonRT_stream i st chunk p s r
          (by simpa [Parsed.wf] using hwf) h.1 h.2
    | serviceCallRequest i sv p s r =>
        exact parse_jsonRT_screq i sv p s r (by simpa [Parsed.jsonSafeEnv] using hjs)
    | serviceCallResponse i res err s r =>
        have h : fieldSafe res = true ∧ fieldSafe err = true := by
          simpa [Parsed.jsonSafeEnv, Bool.and_eq_true] using hjs
        exact parse_jsonRT_scres i res err s r h.1 h.2
    | resourceTransferRequest i rs p s r =>
        exact parse_jsonRT_rtreq i rs p s r (by simpa [Parsed.jsonSafeEnv] using hjs)
    | resourceTransferResponse i c e s r =>
        have h : (c == JVal.undef || chunkWF c) = true ∧ errWF e = true := by
          simpa [Parsed.wf, Bool.and_eq_true] using hwf
        have h2 : fieldSafe c = true ∧ fieldSafe e = true := by
          simpa [Parsed.jsonSafeEnv, Bool.and_eq_true] using hjs
        exact parse_jsonRT_rtres i c e s r h.1 h.2 h2.1

/-- C1 witness: the amended round-trip theorem applied to the concrete
well-formed envelope `ResourceTransferResponse("i", chunk = Uint8Array
[7, 200], error = undefined, sender = "s")` under both codecs. -/
theorem c1_roundtrip_amended_witness :
    Msg.parse (cborRT (Msg.toObj
        (.resourceTransferResponse "i" (.u8 [7, 200]) .undef (some "s") none))) =
      .ok (.resourceTransferResponse "i" (.u8 [7, 200]) .undef (some "s") none) ∧
    Msg.parse (jsonRT (Msg.toObj
        (.resourceTransferResponse "i" (.u8 [7, 200]) .undef (some "s") none))) =
      .ok (.resourceTransferResponse "i" (.u8 [7, 200]) .undef (some "s") none) := by
  have h := c1_roundtrip_amended
    (.resourceTransferResponse "i" (.u8 [7, 200]) .undef (some "s") none) (by decide)
  exact ⟨h.1, h.2 (by decide)⟩

/-! ## Claim C2 -/

/-- C2: the envelope published by `ResourceTrait.push`'s `sendChunk`
(`makeResourceTransferResponse(rid, resource, params, chunk, meta, error,
final, sender, receiver)`) decodes to an object carrying the fields
`resource`, `params` and `final` besides the common ones — and
`Msg.parse` of `src/mqtt-plus-msg.ts` rejects exactly that object: its
`resource-transfer-response` branch admits only `chunk` and `error`
besides `type`/`id`/`sender`/`receiver`, and its rejection message does
not name the offending field. -/
theorem c2_push_envelope_rejected :
    Msg.parse (.obj (.ofList
      [("type", .str "resource-transfer-response"), ("id", .str "r1"),
       ("sender", .str "peerA"), ("resource", .str "res"),
       ("params", .arr .nil), ("chunk", .buf [1]), ("final", .bool true)])) =
      .error "invalid ResourceTransferResponse object: contains unknown fields" ∧
    Msg.parse (.obj (.ofList
      [("type", .str "resource-transfer-response"), ("id", .str "r1"),
       ("chunk", .buf [1]), ("error", .str "oops")])) =
      .ok (.resourceTransferResponse "r1" (.buf [1]) (.str "oops") none none) := by
  exact ⟨rfl, rfl⟩

/-! ## Claim C10 -/

/-- C10: `Msg.parse` accepts a `service-call-response` object in which
both `result` and `error` are present, and also one in which neither is
present, returning a `ServiceCallResponse` in both cases — the
exactly-one-of-result/error constraint is not enforced at parse time
(that branch validates nothing beyond the common fields and the
unknown-field check). -/
theorem c10_service_call_response_lenient (i e : String) (v : JVal) :
    Msg.parse (.obj (.ofList
      [("type", .str "service-call-response"), ("id", .str i),
       ("result", v), ("error", .str e)])) =
      .ok (.serviceCallResponse i v (.str e) none none) ∧
    Msg.parse (.obj (.ofList
      [("type", .str "service-call-response"), ("id", .str i)])) =
      .ok (.serviceCallResponse i .undef .undef none none) := by
  constructor
  · simp [Msg.parse]
  · simp [Msg.parse]

theorem revBreakSlash_no_slash (xs ys : List Char) (h : '/' ∉ xs) :
    revBreakSlash (xs ++ '/' :: ys) = some (xs, ys) := by
  induction xs with
  | nil => simp [revBreakSlash]
  | cons c cs ih =>
    have hc : ¬ c = '/' := fun hc => h (hc ▸ List.mem_cons_self c cs)
    have hcs : '/' ∉ cs := fun hm => h (List.mem_cons_of_mem c hm)
    simp [revBreakSlash, hc, ih hcs]

theorem lastSplit_append (before after : List Char) (h : '/' ∉ after) :
    lastSplit (before ++ '/' :: after) = some (before, after) := by
  have hrev : (before ++ '/' :: after).reverse = after.reverse ++ '/' :: before.reverse := by
    simp
  rw [lastSplit, hrev, revBreakSlash_no_slash _ _ (by simpa using h)]
  simp



theorem data_ne_nil_of_ne_empty {s : String} (h : s ≠ "") : s.data ≠ [] := by
  intro hc
  exact h (String.ext_iff.mpr (by simpa using hc))

theorem topicMake_data (N O : String) (pid : String) :
    (topicMake N O (some pid)).data = (N.data ++ '/' :: O.data) ++ '/' :: pid.data := by
  simp [topicMake, String.data_append]

theorem topic_roundtrip_aux (N O pid : String)
    (hN : N ≠ "") (hNl : ∀ c ∈ N.data, ¬ isLineTerm c = true)
    (hOs : '/' ∉ O.data) (hOn : O.data ≠ [])
    (hps : '/' ∉ pid.data) (hpn : pid ≠ "") :
    topicMatch (topicMake N O (some pid)) =
      some ⟨N, O, if pid = "any" then none else some pid⟩ := by
  rw [topicMatch, topicMake_data]
  simp only [lastSplit_append _ _ hps, lastSplit_append _ _ hOs]
  have hcond : pid.data ≠ [] ∧ O.data ≠ [] ∧ N.data ≠ [] ∧
      N.data.all (fun c => ¬ isLineTerm c) = true := by
    refine ⟨data_ne_nil_of_ne_empty hpn, hOn, data_ne_nil_of_ne_empty hN, ?_⟩
    rw [List.all_eq_true]
    intro c hc
    simpa using hNl c hc
  simp only [if_pos hcond]
  by_cases hany : pid = "any"
  · subst hany
    simp
  · have : pid.data ≠ "any".data := fun hc => hany (String.ext_iff.mpr hc)
    rw [if_neg this, if_neg hany]

/-- C5: for every topic name `N` (non-empty, free of line terminators),
operation `O` drawn from the five operation literals, and peer id `P` —
absent, or a non-empty slash-free string other than the reserved
broadcast marker `"any"` — the default topic functions satisfy
`topicMatch (topicMake N O P) = { name := N, operation := O,
peerId := P }`. -/
theorem c5_topic_make_match (N O : String) (P : Option String)
    (hN : N ≠ "") (hNl : ∀ c ∈ N.data, ¬ isLineTerm c = true)
    (hO : O ∈ operationLabels)
    (hP : ∀ p, P = some p → p ≠ "" ∧ p ≠ "any" ∧ '/' ∉ p.data) :
    topicMatch (topicMake N O P) = some ⟨N, O, P⟩ := by
  have hOs : '/' ∉ O.data ∧ O.data ≠ [] := by
    simp only [operationLabels, List.mem_cons, List.mem_singleton, List.not_mem_nil,
      or_false] at hO
    rcases hO with rfl | rfl | rfl | rfl | rfl <;> exact ⟨by decide, by decide⟩
  cases P with
  | none =>
    rw [show topicMake N O none = topicMake N O (some "any") from rfl,
      topic_roundtrip_aux N O "any" hN hNl hOs.1 hOs.2 (by decide) (by decide)]
    simp
  | some p =>
    obtain ⟨h1, h2, h3⟩ := hP p rfl
    rw [topic_roundtrip_aux N O p hN hNl hOs.1 hOs.2 h3 h1, if_neg h2]

/-- C5 witness: the round trip at the concrete topic name
`"example/hello"`, a directed and a broadcast peer id, and two of the
operation literals. -/
theorem c5_topic_make_match_witness :
    topicMatch (topicMake "example/hello" "service-call-response" (some "peerA")) =
      some ⟨"example/hello", "service-call-response", some "peerA"⟩ ∧
    topicMatch (topicMake "example/hello" "event-emission" none) =
      some ⟨"example/hello", "event-emission", none⟩ := by
  constructor
  · exact c5_topic_make_match "example/hello" "service-call-response" (some "peerA")
      (by decide) (by decide) (by decide)
      (fun p hp => by cases hp; exact ⟨by decide, by decide, by decide⟩)
  · exact c5_topic_make_match "example/hello" "event-emission" none
      (by decide) (by decide) (by decide) (fun p hp => by cases hp)

/-- C9: an empty object `{}` passed as the first argument (or as the
second, after a receiver wrapper) is classified as publish options — the
known-option-keys check passes vacuously for an object with no keys — and
is removed from the user parameters, so the remaining parameter list is
one shorter than the argument list. -/
theorem c9_empty_object_is_options (rest : List JVal) (r : String) :
    parseCallArgs (.obj .nil :: rest) =
      ⟨none, .obj .nil, rest⟩ ∧
    (parseCallArgs (.obj .nil :: rest)).params.length =
      (JVal.obj .nil :: rest).length - 1 ∧
    parseCallArgs (.obj (.cons "__receiver" (.str r) .nil) :: .obj .nil :: rest) =
      ⟨some r, .obj .nil, rest⟩ := by
  refine ⟨?_, ?_, ?_⟩ <;>
    simp [parseCallArgs, isReceiver, isIClientPublishOptions, getReceiver,
      jsKeysOf, publishOptionKeys]

theorem chunkLoop_agg (c : Nat) (hc : 0 < c) :
    ∀ (n : Nat) (B : List Nat) (acc : List Nat), B.length ≤ n → B ≠ [] →
      fetchAggregate (chunkLoop c B) acc = .ok (acc ++ B) := by
  intro n
  induction n with
  | zero => intro B acc h hne; cases B <;> simp_all
  | succ n ih =>
    intro B acc h hne
    rw [chunkLoop, if_neg (by simp [hne]; omega)]
    by_cases hle : B.length ≤ c
    · rw [if_pos hle]
      simp [fetchAggregate]
    · rw [if_neg hle]
      rw [fetchAggregate]
      simp only [Option.getD_some]
      have hdrop : (B.drop c).length ≤ n := by
        simp only [List.length_drop]; omega
      have hdne : B.drop c ≠ [] := by
        intro hcon
        have := congrArg List.length hcon
        simp only [List.length_drop, List.length_nil] at this
        omega
      show fetchAggregate (chunkLoop c (B.drop c)) (acc ++ B.take c) = _
      rw [ih (B.drop c) (acc ++ B.take c) hdrop hdne]
      simp

theorem chunkLoop_count (c : Nat) (hc : 0 < c) :
    ∀ (n : Nat) (B : List Nat), B.length ≤ n → B ≠ [] →
      (chunkLoop c B).length = (B.length + c - 1) / c := by
  intro n
  induction n with
  | zero => intro B h hne; cases B <;> simp_all
  | succ n ih =>
    intro B h hne
    have hBpos : 0 < B.length := List.length_pos.mpr hne
    rw [chunkLoop, if_neg (by simp [hne]; omega)]
    by_cases hle : B.length ≤ c
    · rw [if_pos hle, List.length_singleton]
      symm
      exact Nat.div_eq_of_lt_le (by omega) (by omega)
    · rw [if_neg hle]
      have hdrop : (B.drop c).length ≤ n := by simp only [List.length_drop]; omega
      have hdne : B.drop c ≠ [] := by
        intro hcon
        have := congrArg List.length hcon
        simp only [List.length_drop, List.length_nil] at this
        omega
      rw [List.length_cons, ih (B.drop c) hdrop hdne]
      simp only [List.length_drop]
      have h1 : B.length - c + c - 1 = B.length - 1 := by omega
      have h2 : B.length + c - 1 = (B.length - 1) + c := by omega
      rw [h1, h2, Nat.add_div_right _ hc]

theorem chunkLoop_members (c : Nat) :
    ∀ (n : Nat) (B : List Nat), B.length ≤ n →
      ∀ m ∈ chunkLoop c B, (m.chunk.getD []).length ≤ c ∧ m.error = none := by
  intro n
  induction n with
  | zero =>
    intro B h m hm
    cases B with
    | nil => rw [chunkLoop] at hm; simp at hm
    | cons b bs => simp at h
  | succ n ih =>
    intro B h m hm
    rw [chunkLoop] at hm
    by_cases h0 : c = 0 ∨ B = []
    · rw [if_pos h0] at hm; simp at hm
    · rw [if_neg h0] at hm
      by_cases hle : B.length ≤ c
      · rw [if_pos hle] at hm
        simp at hm
        subst hm
        simp only [Option.getD_some]
        exact ⟨hle, trivial⟩
      · rw [if_neg hle] at hm
        rcases List.mem_cons.mp hm with rfl | hm2
        · exact ⟨by simp, rfl⟩
        · exact ih (B.drop c) (by simp only [List.length_drop]; omega) m hm2

theorem chunkLoop_ne_nil (c : Nat) (B : List Nat) (hc : ¬ c = 0) (hne : B ≠ []) :
    chunkLoop c B ≠ [] := by
  rw [chunkLoop, if_neg (by simp [hne, hc])]
  by_cases hle : B.length ≤ c
  · rw [if_pos hle]; simp
  · rw [if_neg hle]; simp

theorem chunkLoop_finals (c : Nat) (hc : 0 < c) :
    ∀ (n : Nat) (B : List Nat), B.length ≤ n → B ≠ [] →
      (chunkLoop c B).map ChunkMsg.final =
        List.replicate ((chunkLoop c B).length - 1) false ++ [true] := by
  intro n
  induction n with
  | zero => intro B h hne; cases B <;> simp_all
  | succ n ih =>
    intro B h hne
    rw [chunkLoop, if_neg (by simp [hne]; omega)]
    by_cases hle : B.length ≤ c
    · rw [if_pos hle]; simp
    · rw [if_neg hle]
      have hdrop : (B.drop c).length ≤ n := by simp only [List.length_drop]; omega
      have hdne : B.drop c ≠ [] := by
        intro hcon
        have := congrArg List.length hcon
        simp only [List.length_drop, List.length_nil] at this
        omega
      have hrec := ih (B.drop c) hdrop hdne
      have hnn : chunkLoop c (B.drop c) ≠ [] := chunkLoop_ne_nil c _ (by omega) hdne
      have hlen : 0 < (chunkLoop c (B.drop c)).length := List.length_pos.mpr hnn
      simp only [List.map_cons, hrec, List.length_cons]
      rw [show (chunkLoop c (B.drop c)).length + 1 - 1 =
        ((chunkLoop c (B.drop c)).length - 1) + 1 from by omega]
      simp [List.replicate_succ]

/-- C4: for every byte sequence B sent via sendBufferAsChunks with a positive
chunkSize, the receiver-side aggregation recovers B exactly, the number of chunk
messages equals max(1, ceil(|B|/chunkSize)), every message carries at most
chunkSize bytes and no error, only the last message has final=true, and an
empty B yields exactly one message with no chunk and final=true. -/
theorem c4_chunk_integrity (B : List Nat) (c : Nat) (hc : 0 < c) :
    fetchAggregate (sendBufferAsChunks B c) [] = .ok B ∧
    (sendBufferAsChunks B c).length = max 1 ((B.length + c - 1) / c) ∧
    (∀ m ∈ sendBufferAsChunks B c, (m.chunk.getD []).length ≤ c ∧ m.error = none) ∧
    (sendBufferAsChunks B c).map ChunkMsg.final =
      List.replicate ((sendBufferAsChunks B c).length - 1) false ++ [true] ∧
    (B = [] → sendBufferAsChunks B c = [⟨none, none, true⟩]) := by
  by_cases hne : B = []
  · subst hne
    refine ⟨rfl, ?_, ?_, rfl, fun _ => rfl⟩
    · have h0 : (c - 1) / c = 0 := Nat.div_eq_of_lt (by omega)
      simp [sendBufferAsChunks, h0]
    · intro m hm
      simp [sendBufferAsChunks] at hm
      subst hm
      exact ⟨by simp, rfl⟩
  · have hlen : ¬ B.length = 0 := fun h => hne (List.length_eq_zero.mp h)
    have hsend : sendBufferAsChunks B c = chunkLoop c B := by
      rw [sendBufferAsChunks, if_neg hlen]
    rw [hsend]
    refine ⟨?_, ?_, ?_, ?_, fun hcon => absurd hcon hne⟩
    · simpa using chunkLoop_agg c hc B.length B [] le_rfl hne
    · rw [chunkLoop_count c hc B.length B le_rfl hne]
      have h1 : 1 ≤ (B.length + c - 1) / c := by
        rw [Nat.le_div_iff_mul_le hc]
        omega
      omega
    · exact chunkLoop_members c B.length B le_rfl
    · exact chunkLoop_finals c hc B.length B le_rfl hne

theorem c4_chunk_integrity_witness :
    fetchAggregate (sendBufferAsChunks [1, 2, 3, 4, 5] 2) [] = .ok [1, 2, 3, 4, 5] ∧
    (sendBufferAsChunks [1, 2, 3, 4, 5] 2).length =
      max 1 ((([1, 2, 3, 4, 5] : List Nat).length + 2 - 1) / 2) ∧
    (∀ m ∈ sendBufferAsChunks [1, 2, 3, 4, 5] 2,
      (m.chunk.getD []).length ≤ 2 ∧ m.error = none) ∧
    (sendBufferAsChunks [1, 2, 3, 4, 5] 2).map ChunkMsg.final =
      List.replicate ((sendBufferAsChunks [1, 2, 3, 4, 5] 2).length - 1) false ++ [true] ∧
    (([1, 2, 3, 4, 5] : List Nat) = [] →
      sendBufferAsChunks [1, 2, 3, 4, 5] 2 = [⟨none, none, true⟩]) := by
  exact c4_chunk_integrity [1, 2, 3, 4, 5] 2 (by decide)

theorem mapGet_mapDelete_self {α : Type} (m : List (String × α)) (k : String) :
    mapGet (mapDelete m k) k = none := by
  induction m with
  | nil => rfl
  | cons p tl ih =>
    obtain ⟨k0, v⟩ := p
    by_cases h : k0 = k
    · simp [mapDelete, h, ih]
    · simp [mapDelete, mapGet, h, ih]

theorem mapGet_mapSet_self {α : Type} (m : List (String × α)) (k : String) (v : α) :
    mapGet (mapSet m k v) k = some v := by
  simp [mapSet, mapGet]

theorem responseUnsubscribe_callback (st : ServiceState) (o s : String) :
    (responseUnsubscribe st o s).responseCallback = st.responseCallback := by
  unfold responseUnsubscribe
  dsimp only
  split
  · rfl
  · split <;> rfl

theorem responseUnsubscribe_spec (st : ServiceState) (o s : String) (n : Int)
    (hn : mapGet st.responseSubscriptions (respTopic o s) = some n) :
    (n = 1 → (responseUnsubscribe st o s).responseSubscriptions =
        mapDelete (mapSet st.responseSubscriptions (respTopic o s) 0) (respTopic o s) ∧
      (responseUnsubscribe st o s).ops = st.ops ++ [BrokerOp.unsub (respTopic o s)]) ∧
    (¬ n = 1 → (responseUnsubscribe st o s).responseSubscriptions =
        mapSet st.responseSubscriptions (respTopic o s) (n - 1) ∧
      (responseUnsubscribe st o s).ops = st.ops) := by
  unfold responseUnsubscribe
  dsimp only
  rw [if_neg (by simp [mapHas, hn]), hn]
  simp only [Option.getD_some]
  constructor
  · intro h1
    subst h1
    rw [if_pos (by simp [mapGet_mapSet_self])]
    exact ⟨rfl, rfl⟩
  · intro h1
    rw [if_neg (by simp only [mapGet_mapSet_self, Option.some.injEq]; omega)]
    exact ⟨rfl, rfl⟩

/-- C6: when a service call times out, the pending-call entry for its request
id is deleted, its response-topic refcount contribution is removed (the topic
entry disappears and a broker unsubscribe is issued exactly when it was the
last contribution), and the rejection message is "communication timeout";
when a resource fetch times out, its fetch-callback entry is deleted, the
response topic is unsubscribed at the broker, and the stream is destroyed
with the message "communication timeout". -/
theorem c6_timeout_cleanup (st : ServiceState) (fst : FetchState)
    (ownId rid service requestId resource : String) (n : Int)
    (hn : mapGet st.responseSubscriptions (respTopic ownId service) = some n) :
    (callOnTimeout st ownId rid service).2 = "communication timeout" ∧
    mapGet (callOnTimeout st ownId rid service).1.responseCallback rid = none ∧
    (n = 1 →
      mapGet (callOnTimeout st ownId rid service).1.responseSubscriptions
        (respTopic ownId service) = none ∧
      (callOnTimeout st ownId rid service).1.ops =
        st.ops ++ [BrokerOp.unsub (respTopic ownId service)]) ∧
    (¬ n = 1 →
      mapGet (callOnTimeout st ownId rid service).1.responseSubscriptions
        (respTopic ownId service) = some (n - 1) ∧
      (callOnTimeout st ownId rid service).1.ops = st.ops) ∧
    (fetchOnTimeout fst ownId requestId resource).2 = "communication timeout" ∧
    mapGet (fetchOnTimeout fst ownId requestId resource).1.callbacks requestId = none ∧
    (fetchOnTimeout fst ownId requestId resource).1.ops =
      fst.ops ++ [BrokerOp.unsub (topicMake resource "resource-transfer-response" (some ownId))] := by
  have hspec := responseUnsubscribe_spec
    { st with responseCallback := mapDelete st.responseCallback rid } ownId service n hn
  refine ⟨rfl, ?_, ?_, ?_, rfl, mapGet_mapDelete_self _ _, rfl⟩
  · rw [show (callOnTimeout st ownId rid service).1 =
      responseUnsubscribe { st with responseCallback := mapDelete st.responseCallback rid }
        ownId service from rfl, responseUnsubscribe_callback]
    exact mapGet_mapDelete_self _ _
  · intro h1
    obtain ⟨hsub, hops⟩ := hspec.1 h1
    refine ⟨?_, hops⟩
    rw [show (callOnTimeout st ownId rid service).1 =
      responseUnsubscribe { st with responseCallback := mapDelete st.responseCallback rid }
        ownId service from rfl, hsub]
    exact mapGet_mapDelete_self _ _
  · intro h1
    obtain ⟨hsub, hops⟩ := hspec.2 h1
    refine ⟨?_, hops⟩
    rw [show (callOnTimeout st ownId rid service).1 =
      responseUnsubscribe { st with responseCallback := mapDelete st.responseCallback rid }
        ownId service from rfl, hsub]
    exact mapGet_mapSet_self _ _ _

theorem c6_timeout_cleanup_witness :
    mapGet (⟨[("r1", "svc")], [(respTopic "me" "svc", 1)], []⟩ :
        ServiceState).responseSubscriptions (respTopic "me" "svc") = some 1 ∧
    (callOnTimeout ⟨[("r1", "svc")], [(respTopic "me" "svc", 1)], []⟩ "me" "r1" "svc").2 =
      "communication timeout" ∧
    mapGet (callOnTimeout ⟨[("r1", "svc")], [(respTopic "me" "svc", 1)], []⟩
      "me" "r1" "svc").1.responseCallback "r1" = none ∧
    ((1 : Int) = 1 →
      mapGet (callOnTimeout ⟨[("r1", "svc")], [(respTopic "me" "svc", 1)], []⟩
        "me" "r1" "svc").1.responseSubscriptions (respTopic "me" "svc") = none ∧
      (callOnTimeout ⟨[("r1", "svc")], [(respTopic "me" "svc", 1)], []⟩
        "me" "r1" "svc").1.ops = [] ++ [BrokerOp.unsub (respTopic "me" "svc")]) ∧
    (¬ (1 : Int) = 1 →
      mapGet (callOnTimeout ⟨[("r1", "svc")], [(respTopic "me" "svc", 1)], []⟩
        "me" "r1" "svc").1.responseSubscriptions (respTopic "me" "svc") = some (1 - 1) ∧
      (callOnTimeout ⟨[("r1", "svc")], [(respTopic "me" "svc", 1)], []⟩
        "me" "r1" "svc").1.ops = []) ∧
    (fetchOnTimeout ⟨[("q1", "res")], []⟩ "me" "q1" "res").2 = "communication timeout" ∧
    mapGet (fetchOnTimeout ⟨[("q1", "res")], []⟩ "me" "q1" "res").1.callbacks "q1" = none ∧
    (fetchOnTimeout ⟨[("q1", "res")], []⟩ "me" "q1" "res").1.ops =
      [] ++ [BrokerOp.unsub (topicMake "res" "resource-transfer-response" (some "me"))] :=
  ⟨by decide, c6_timeout_cleanup ⟨[("r1", "svc")], [(respTopic "me" "svc", 1)], []⟩
    ⟨[("q1", "res")], []⟩ "me" "r1" "svc" "q1" "res" 1 (by decide)⟩

/-- C3 counterexample: an event message on a topic whose peer-id is "other"
— neither empty nor the receiving peer's id "me" — is still dispatched to
the event handler: neither `BaseTrait._onMessage` nor the event dispatch
branch applies a peer-id filter, so the message is not dropped. -/
theorem c3_counterexample :
    topicMatch "ev/event-emission/other" =
      some ⟨"ev", "event-emission", some "other"⟩ ∧
    ("other" : String) ≠ "" ∧
    ("other" : String) ≠ "me" ∧
    eventDispatches "ev" "ev/event-emission/other"
      (.eventEmission "i1" "ev" none (some "peerX") (some "other")) = true := by
  exact ⟨by decide, by decide, by decide, by decide⟩

/-- C3 (amended): only the service-call-response dispatch branch filters on
the topic peer-id: a service-call response arriving on a topic whose
peer-id differs from this peer's id (including an absent/broadcast peer-id)
is dropped — the pending callback is not invoked — while the event dispatch
branch delivers messages regardless of the topic peer-id. -/
theorem c3_peer_filter_amended (ownId : String) (pending : List (String × String))
    (topic : String) (tm : TopicMatching) (rid : String) (res err : JVal)
    (s r : Option String)
    (hm : topicMatch topic = some tm) (hne : ¬ tm.peerId = some ownId) :
    serviceResponseDispatches ownId pending topic
      (.serviceCallResponse rid res err s r) = false := by
  simp only [serviceResponseDispatches, hm]
  simp [hne]

theorem c3_peer_filter_amended_witness :
    topicMatch "svc/service-call-response/other" =
      some ⟨"svc", "service-call-response", some "other"⟩ ∧
    ¬ (some "other" : Option String) = some "me" ∧
    serviceResponseDispatches "me" [("r1", "svc")] "svc/service-call-response/other"
      (.serviceCallResponse "r1" .undef .undef none none) = false :=
  ⟨by decide, by decide,
    c3_peer_filter_amended "me" [("r1", "svc")] "svc/service-call-response/other"
      ⟨"svc", "service-call-response", some "other"⟩ "r1" .undef .undef none none
      (by decide) (by decide)⟩

theorem emit_topic_eq (event : String) (receiver : Option String) :
    topicMake event "event-emission" receiver =
      event ++ "/event-emission/" ++ (match receiver with | some x => x | none => "any") := by
  cases receiver <;>
    (apply String.ext; simp [topicMake, String.data_append])

/-- C7: a dry emit returns exactly the `{topic, payload, options}` triple
that an ordinary emit of the same event publishes, and performs no
transport operation at all. -/
theorem c7_dry_emit (ownId rid event : String) (params : Option JArr)
    (receiver : Option String) (optQos : Option Nat) :
    (emitDry ownId rid event params receiver optQos).2 = [] ∧
    emit ownId rid event params receiver optQos =
      [(emitDry ownId rid event params receiver optQos).1] := by
  refine ⟨rfl, ?_⟩
  simp only [emit, emitDry, Msg.toObj, emit_topic_eq]
  cases optQos <;> simp [Option.getD]

/-- C8 counterexample: an application listener "app" and a second peer
"peerB" are attached alongside peer "peerA" on a shared transport; before
peerA's destroy an inbound message reaches all three, but after
`peerA.destroy()` — which calls `removeAllListeners()` — no listener at all
is invoked: the application's and peerB's listeners do not remain
attached. -/
theorem c8_counterexample :
    onInbound (peerAttach (peerAttach (peerAttach [] "app") "peerA") "peerB") =
      ["app", "peerA", "peerB"] ∧
    onInbound (peerDestroy
      (peerAttach (peerAttach (peerAttach [] "app") "peerA") "peerB")) = [] ∧
    "app" ∉ onInbound (peerDestroy
      (peerAttach (peerAttach (peerAttach [] "app") "peerA") "peerB")) ∧
    "peerB" ∉ onInbound (peerDestroy
      (peerAttach (peerAttach (peerAttach [] "app") "peerA") "peerB")) := by
  exact ⟨rfl, rfl, by decide, by decide⟩

/-- C8 (amended): `destroy()` calls `removeAllListeners()` on the shared
transport handle, detaching every listener — this peer's own inbound
callback, but also every listener installed by the application or by other
peers sharing the same transport: after one peer's destroy, an inbound
message is delivered to no listener at all. -/
theorem c8_destroy_amended (transport : List String) (own other : String) :
    onInbound (peerDestroy (peerAttach transport own)) = [] ∧
    other ∉ onInbound (peerDestroy (peerAttach transport own)) := by
  exact ⟨rfl, by simp [onInbound, peerDestroy]⟩

end MqttPlus
